import Mathlib

/-!
Verification of `src/pymap3d/los.py` (`lookAtSpheroid`): line-of-sight
intersection of a space observer's ray with a reference ellipsoid.

Modelling conventions:
* IEEE floating-point values are modelled by `RF := Option ℝ`, where `none`
  is the not-a-number sentinel (NaN).  Arithmetic propagates `none` exactly as
  IEEE arithmetic propagates NaN; every ordered comparison involving `none` is
  false, matching IEEE comparisons with NaN.  Rounding is not modelled (values
  are exact reals) and infinities are not represented: a division by zero is
  mapped to the sentinel and, as proved below, never happens for valid
  ellipsoid axes and nonzero directions.
* Scalar-or-array arguments (numpy broadcasting over one axis) are modelled
  by `PyVal`, either a `scalar` or a 1-D `arr`.  `atleast_1d`, broadcasting,
  the final `squeeze()[()]`, and the truth test of `h0 < 0` (which raises for
  multi-element arrays) follow numpy semantics.
* The geodetic/ECEF/ENU converters and the ellipsoid parameter record are
  external collaborators of this module (imported from sibling modules that
  are out of scope); they are taken as parameters, see `Collab`.
-/

open scoped Classical

namespace Los

/-- Floating-point value: a finite real, or `none` for the NaN sentinel. -/
abbrev RF := Option ℝ

/-- Addition with NaN propagation. -/
def RF.add (x y : RF) : RF := x.bind fun a => y.bind fun b => some (a + b)

/-- Subtraction with NaN propagation. -/
def RF.sub (x y : RF) : RF := x.bind fun a => y.bind fun b => some (a - b)

/-- Multiplication with NaN propagation. -/
def RF.mul (x y : RF) : RF := x.bind fun a => y.bind fun b => some (a * b)

/-- Division with NaN propagation.  A zero divisor would give an IEEE
infinity (or NaN), which this model does not represent; it is mapped to the
sentinel and is proved unreachable for valid inputs. -/
noncomputable def RF.div (x y : RF) : RF :=
  x.bind fun a => y.bind fun b => if b = 0 then none else some (a / b)

/-- Truth of the comparison with zero, `x < 0`.  NaN compares false. -/
def RF.ltZero : RF → Prop
  | none => False
  | some r => r < 0

/-- Lift of a 3-argument real function, propagating NaN. -/
def RF.lift3 (f : ℝ → ℝ → ℝ → ℝ) (u v w : RF) : RF :=
  u.bind fun a => v.bind fun b => w.bind fun c => some (f a b c)

/-- Lift of a 6-argument real function, propagating NaN. -/
def RF.lift6 (f : ℝ → ℝ → ℝ → ℝ → ℝ → ℝ → ℝ) (x y z u v w : RF) : RF :=
  x.bind fun a => y.bind fun b => z.bind fun c =>
    u.bind fun d => v.bind fun e => w.bind fun g => some (f a b c d e g)

/-- Square root as numpy computes it: `numpy.sqrt` of a negative value is
NaN (with a warning), and NaN propagates. -/
noncomputable def fpSqrt : RF → RF
  | none => none
  | some r => if r < 0 then none else some (Real.sqrt r)

/-- Modelled from the spec: the ellipsoid parameter record
(`pymap3d.ellipsoid.Ellipsoid`, out of scope) holds the semi-major
(equatorial) and semi-minor (polar) axes. -/
structure Ellipsoid where
  semimajor_axis : ℝ
  semiminor_axis : ℝ

/-- Modelled from the spec: the default reference ellipsoid (WGS84),
used when the `ell` argument is `None`. -/
noncomputable def Ellipsoid.wgs84 : Ellipsoid :=
  { semimajor_axis := 6378137.0, semiminor_axis := 6356752.314245 }

/-- Resolution of the optional `ell` argument (`if ell is None: ell = Ellipsoid()`). -/
noncomputable def ellResolve (o : Option Ellipsoid) : Ellipsoid :=
  o.getD Ellipsoid.wgs84

/-- Modelled from the spec: the external collaborator interfaces consumed by
`lookAtSpheroid` (spec section 6) — `aer2enu`, `enu2uvw`, `geodetic2ecef`,
`ecef2geodetic`, and the constant `pi` imported from numpy/math.  Each is an
element-wise scalar function; the façade maps them over batched inputs.  The
Boolean argument is the degrees/radians flag. -/
structure Collab where
  pi : ℝ
  aer2enu : RF → RF → RF → Bool → RF × RF × RF
  enu2uvw : RF → RF → RF → RF → RF → Bool → RF × RF × RF
  geodetic2ecef : RF → RF → RF → Bool → RF × RF × RF
  ecef2geodetic : RF → RF → RF → Bool → RF × RF × RF

/-- Coefficient `value` of the intersection solver, source lines 89. -/
def value (a b c x y z u v w : ℝ) : ℝ :=
  -(a ^ 2) * b ^ 2 * w * z - a ^ 2 * c ^ 2 * v * y - b ^ 2 * c ^ 2 * u * x

/-- Discriminant `radical` of the intersection solver, source lines 90–103. -/
def radical (a b c x y z u v w : ℝ) : ℝ :=
  a ^ 2 * b ^ 2 * w ^ 2
  + a ^ 2 * c ^ 2 * v ^ 2
  - a ^ 2 * v ^ 2 * z ^ 2
  + 2 * a ^ 2 * v * w * y * z
  - a ^ 2 * w ^ 2 * y ^ 2
  + b ^ 2 * c ^ 2 * u ^ 2
  - b ^ 2 * u ^ 2 * z ^ 2
  + 2 * b ^ 2 * u * w * x * z
  - b ^ 2 * w ^ 2 * x ^ 2
  - c ^ 2 * u ^ 2 * y ^ 2
  + 2 * c ^ 2 * u * v * x * y
  - c ^ 2 * v ^ 2 * x ^ 2

/-- Divisor `magnitude` of the intersection solver, source line 105. -/
def magnitude (a b c u v w : ℝ) : ℝ :=
  a ^ 2 * b ^ 2 * w ^ 2 + a ^ 2 * c ^ 2 * v ^ 2 + b ^ 2 * c ^ 2 * u ^ 2

/-- Per-element intersection distance (source lines 105–118, numpy path):
`d = (value - a*b*c*sqrt(radical)) / magnitude`, then the element is masked
to NaN where `radical < 0` and where `d < 0`. -/
noncomputable def losD (a b c : ℝ) (x y z u v w : RF) : RF :=
  let val := RF.lift6 (value a b c) x y z u v w
  let rad := RF.lift6 (radical a b c) x y z u v w
  let mag := RF.lift3 (magnitude a b c) u v w
  let d0 := RF.div (RF.sub val (RF.mul (some (a * b * c)) (fpSqrt rad))) mag
  let d1 := if RF.ltZero rad then none else d0
  if RF.ltZero d1 then none else d1

/-- Pointing-direction stage (source lines 83–86): elevation
`el = tilt - 90` (degrees) or `tilt - pi/2` (radians), then
`aer2enu(az, el, srange=1.0, deg)` and `enu2uvw(e, n, u, lat0, lon0, deg)`. -/
noncomputable def losUVW (C : Collab) (deg : Bool) (lat0 lon0 az tilt : RF) :
    RF × RF × RF :=
  let el := RF.sub tilt (some (if deg then (90 : ℝ) else C.pi / 2))
  let enu := C.aer2enu az el (some 1) deg
  C.enu2uvw enu.1 enu.2.1 enu.2.2 lat0 lon0 deg

/-- Discriminant of the solver evaluated on one element of the batch, after
the direction and observer-position stages. -/
noncomputable def radAt (C : Collab) (a b c : ℝ) (deg : Bool)
    (lat0 lon0 h0 az tilt : RF) : RF :=
  let uvw := losUVW C deg lat0 lon0 az tilt
  let xyz := C.geodetic2ecef lat0 lon0 h0 deg
  RF.lift6 (radical a b c) xyz.1 xyz.2.1 xyz.2.2 uvw.1 uvw.2.1 uvw.2.2

/-- Full per-element pipeline of `lookAtSpheroid` (source lines 83–121):
direction resolution, observer conversion, intersection distance, and the
back conversion of the intersection point to geodetic coordinates. -/
noncomputable def losElem (C : Collab) (a b c : ℝ) (deg : Bool)
    (lat0 lon0 h0 az tilt : RF) : RF × RF × RF :=
  let uvw := losUVW C deg lat0 lon0 az tilt
  let xyz := C.geodetic2ecef lat0 lon0 h0 deg
  let d := losD a b c xyz.1 xyz.2.1 xyz.2.2 uvw.1 uvw.2.1 uvw.2.2
  let g := C.ecef2geodetic (RF.add xyz.1 (RF.mul d uvw.1))
    (RF.add xyz.2.1 (RF.mul d uvw.2.1)) (RF.add xyz.2.2 (RF.mul d uvw.2.2)) deg
  (g.1, g.2.1, d)

/-- Scalar-or-1-D-array argument, as accepted by the numpy-backed function. -/
inductive PyVal where
  | scalar : RF → PyVal
  | arr : List RF → PyVal

/-- Semantics of `numpy.atleast_1d` on our values (source lines 72–77). -/
def atleast_1d : PyVal → PyVal
  | .scalar x => .arr [x]
  | p => p

/-- Element `i` of a value under broadcasting: scalars and one-element
arrays broadcast to every index. -/
def PyVal.elem : PyVal → Nat → RF
  | .scalar x, _ => x
  | .arr l, i => if l.length = 1 then l.getD 0 none else l.getD i none

/-- Merge of two 1-D broadcast lengths (numpy rule: equal, or one of them 1). -/
def mergeLen : Option Nat → Nat → Option Nat
  | none, _ => none
  | some m, n =>
    if n = 1 then some m else if m = 1 then some n
    else if m = n then some m else none

/-- Common broadcast length of a list of arguments; `none` when the shapes
are incompatible (numpy raises a broadcast ValueError). -/
def commonLen (ps : List PyVal) : Option Nat :=
  ps.foldl
    (fun acc p => match p with
      | .scalar _ => acc
      | .arr l => mergeLen acc l.length)
    (some 1)

/-- Semantics of `result.squeeze()[()]` for a 1-D result (source line 124):
a single-element array collapses to a scalar, anything else stays an array. -/
def squeeze : List RF → PyVal
  | [x] => .scalar x
  | l => .arr l

/-- Errors surfaced by the façade.  In Python all three are `ValueError`s;
they are distinguished here by their message. -/
inductive PyErr where
  /-- Message: Intersection calculation requires altitude [0, Infinity). -/
  | invalidAltitude
  /-- Message of numpy: the truth value of an array with more than one
  element is ambiguous. -/
  | ambiguousTruth
  /-- Message of numpy: operands could not be broadcast together. -/
  | broadcastMismatch

/-- Element `i` of the batched computation of `lookAtSpheroid`: the
per-element pipeline applied to element `i` of each broadcast input, with the
axes `a = b = semimajor_axis`, `c = semiminor_axis` of the resolved ellipsoid
(source lines 79–81). -/
noncomputable def bodyF (C : Collab) (lat0 lon0 h0 az tilt : PyVal)
    (ell : Option Ellipsoid) (deg : Bool) (i : Nat) : RF × RF × RF :=
  losElem C (ellResolve ell).semimajor_axis (ellResolve ell).semimajor_axis
    (ellResolve ell).semiminor_axis deg
    ((atleast_1d lat0).elem i) ((atleast_1d lon0).elem i) (h0.elem i)
    (az.elem i) ((atleast_1d tilt).elem i)

/-- Body of `lookAtSpheroid` after the altitude guard (source lines 69–126):
default-ellipsoid resolution, `atleast_1d` on `lat0, lon0, tilt`,
element-wise computation over the common broadcast length, and the final
squeeze of each output. -/
noncomputable def losBody (C : Collab) (lat0 lon0 h0 az tilt : PyVal)
    (ell : Option Ellipsoid) (deg : Bool) :
    Except PyErr (PyVal × PyVal × PyVal) :=
  match commonLen [atleast_1d lat0, atleast_1d lon0, h0, az, atleast_1d tilt] with
  | none => .error .broadcastMismatch
  | some N =>
    .ok (squeeze ((List.range N).map fun i => (bodyF C lat0 lon0 h0 az tilt ell deg i).1),
      squeeze ((List.range N).map fun i => (bodyF C lat0 lon0 h0 az tilt ell deg i).2.1),
      squeeze ((List.range N).map fun i => (bodyF C lat0 lon0 h0 az tilt ell deg i).2.2))

/-- Shallow embedding of `lookAtSpheroid` (numpy present).  The guard
`if h0 < 0` (source line 66) takes the truth value of the comparison: for a
scalar or a one-element array this is the elementary comparison (false on
NaN); for any other array numpy raises the ambiguous-truth `ValueError`. -/
noncomputable def lookAtSpheroid (C : Collab) (lat0 lon0 h0 az tilt : PyVal)
    (ell : Option Ellipsoid) (deg : Bool) :
    Except PyErr (PyVal × PyVal × PyVal) :=
  match h0 with
  | .scalar x =>
    if RF.ltZero x then .error .invalidAltitude
    else losBody C lat0 lon0 (.scalar x) az tilt ell deg
  | .arr [x] =>
    if RF.ltZero x then .error .invalidAltitude
    else losBody C lat0 lon0 (.arr [x]) az tilt ell deg
  | .arr _ => .error .ambiguousTruth

/-- Guard outcome that lets the call proceed to the body: `bool(h0 < 0)`
evaluates (no ambiguous-truth error) and is false. -/
def guardOk : PyVal → Prop
  | .scalar x => ¬ RF.ltZero x
  | .arr [x] => ¬ RF.ltZero x
  | .arr _ => False

/-- Shallow embedding of `lookAtSpheroid` in the numpy-less fallback
environment (the `except ImportError` path, all inputs scalar).  With
`math.sqrt`, a negative `radical` raises `ValueError`, caught at source line
112, which sets `d = nan`; when `radical >= 0`, `d` is a plain float and the
mask assignment `d[radical < 0] = nan` raises `TypeError`, caught at source
line 117 with `pass` — so the subsequent `d[d < 0] = nan` mask never runs and
a negative `d` is returned unmasked. -/
noncomputable def lookAtSpheroid_nonumpy (C : Collab) (lat0 lon0 h0 az tilt : RF)
    (ell : Option Ellipsoid) (deg : Bool) : Except PyErr (RF × RF × RF) :=
  if RF.ltZero h0 then .error .invalidAltitude
  else
    let e := ellResolve ell
    let a := e.semimajor_axis
    let b := e.semimajor_axis
    let c := e.semiminor_axis
    let uvw := losUVW C deg lat0 lon0 az tilt
    let xyz := C.geodetic2ecef lat0 lon0 h0 deg
    let val := RF.lift6 (value a b c) xyz.1 xyz.2.1 xyz.2.2 uvw.1 uvw.2.1 uvw.2.2
    let rad := RF.lift6 (radical a b c) xyz.1 xyz.2.1 xyz.2.2 uvw.1 uvw.2.1 uvw.2.2
    let mag := RF.lift3 (magnitude a b c) uvw.1 uvw.2.1 uvw.2.2
    let d := if RF.ltZero rad then none
      else RF.div (RF.sub val (RF.mul (some (a * b * c)) (fpSqrt rad))) mag
    let g := C.ecef2geodetic (RF.add xyz.1 (RF.mul d uvw.1))
      (RF.add xyz.2.1 (RF.mul d uvw.2.1)) (RF.add xyz.2.2 (RF.mul d uvw.2.2)) deg
    .ok (g.1, g.2.1, d)

/-- Modelled from the spec: the general triaxial ray–ellipsoid quadratic of
spec section 4.1.  For the ellipsoid with semi-axes `(ax, ay, az)` and the ray
`(x, y, z) + d·(u, v, w)`, the surface equation multiplied through by
`ax²·ay²·az²` gives `A·d² + 2·B·d + K = 0` with `A` the magnitude, `-B` the
value, and discriminant `B² - A·K`; the near (entry) root is
`(-B - sqrt(B² - A·K)) / A`, masked to the sentinel when the line misses
(negative discriminant) or the root lies behind the observer. -/
noncomputable def specTriD (ax ay az : ℝ) (x y z u v w : RF) : RF :=
  let B := RF.lift6
    (fun xr yr zr ur vr wr =>
      ay ^ 2 * az ^ 2 * ur * xr + ax ^ 2 * az ^ 2 * vr * yr + ax ^ 2 * ay ^ 2 * wr * zr)
    x y z u v w
  let A := RF.lift3
    (fun ur vr wr =>
      ay ^ 2 * az ^ 2 * ur ^ 2 + ax ^ 2 * az ^ 2 * vr ^ 2 + ax ^ 2 * ay ^ 2 * wr ^ 2)
    u v w
  let K := RF.lift3
    (fun xr yr zr =>
      ay ^ 2 * az ^ 2 * xr ^ 2 + ax ^ 2 * az ^ 2 * yr ^ 2 + ax ^ 2 * ay ^ 2 * zr ^ 2
        - ax ^ 2 * ay ^ 2 * az ^ 2)
    x y z
  let disc := RF.sub (RF.mul B B) (RF.mul A K)
  let d0 := RF.div (RF.sub (RF.sub (some 0) B) (fpSqrt disc)) A
  let d1 := if RF.ltZero disc then none else d0
  if RF.ltZero d1 then none else d1

/-- Degrees-to-radians conversion of one value, `θ · pi / 180`. -/
noncomputable def d2rF (piv : ℝ) : RF → RF := fun x => x.bind fun t => some (t * piv / 180)

/-- Radians-to-degrees conversion of one value, `θ · 180 / pi`. -/
noncomputable def r2dF (piv : ℝ) : RF → RF := fun x => x.bind fun t => some (t * 180 / piv)

/-- Element-wise map over a scalar-or-array value. -/
def PyVal.fmap (f : RF → RF) : PyVal → PyVal
  | .scalar x => .scalar (f x)
  | .arr l => .arr (l.map f)

/-- Modelled from the spec: the unit contract of the collaborators (spec
sections 4.2 and 6) — each collaborator called with the degrees flag on
degree-valued angles agrees with itself called with the radians flag on the
radian-converted angles, and `ecef2geodetic` returns degree angles that are
the degree conversion of its radian angles. -/
structure UnitCoherent (C : Collab) : Prop where
  aer : ∀ az el s, C.aer2enu az el s true
    = C.aer2enu (d2rF C.pi az) (d2rF C.pi el) s false
  enu : ∀ e n up la lo, C.enu2uvw e n up la lo true
    = C.enu2uvw e n up (d2rF C.pi la) (d2rF C.pi lo) false
  g2e : ∀ la lo h, C.geodetic2ecef la lo h true
    = C.geodetic2ecef (d2rF C.pi la) (d2rF C.pi lo) h false
  e2g : ∀ x y z, C.ecef2geodetic x y z true
    = (r2dF C.pi (C.ecef2geodetic x y z false).1,
       r2dF C.pi (C.ecef2geodetic x y z false).2.1,
       (C.ecef2geodetic x y z false).2.2)

/-- Concrete collaborator instance used to exercise the façade: the observer
maps to ECEF `(3, 0, 0)` and the pointing direction to `(0, 0, 1)`, so that
the ray misses the `⟨2, 1⟩` ellipsoid (`radical = -20 < 0`); the back
conversion is the identity on its Cartesian arguments. -/
def CwMiss : Collab where
  pi := 0
  aer2enu := fun _ _ _ _ => (some 0, some 0, some 0)
  enu2uvw := fun _ _ _ _ _ _ => (some 0, some 0, some 1)
  geodetic2ecef := fun _ _ _ _ => (some 3, some 0, some 0)
  ecef2geodetic := fun x y z _ => (x, y, z)

/-- Concrete collaborator instance with a forward intersection: observer at
ECEF `(-3, 0, 0)` pointing along `(1, 0, 0)` hits the `⟨2, 1⟩` ellipsoid at
distance `d = 1`. -/
def CwHit : Collab where
  pi := 0
  aer2enu := fun _ _ _ _ => (some 0, some 0, some 0)
  enu2uvw := fun _ _ _ _ _ _ => (some 1, some 0, some 0)
  geodetic2ecef := fun _ _ _ _ => (some (-3), some 0, some 0)
  ecef2geodetic := fun x y z _ => (x, y, z)

/-- Concrete collaborator instance with the ray pointing away from the
`⟨2, 1⟩` ellipsoid: observer at ECEF `(3, 0, 0)` pointing along `(1, 0, 0)`;
both quadratic roots are negative (`d = -5` for the near root). -/
def CwAway : Collab where
  pi := 0
  aer2enu := fun _ _ _ _ => (some 0, some 0, some 0)
  enu2uvw := fun _ _ _ _ _ _ => (some 1, some 0, some 0)
  geodetic2ecef := fun _ _ _ _ => (some 3, some 0, some 0)
  ecef2geodetic := fun x y z _ => (x, y, z)

/-- Concrete collaborator instance that propagates the sentinel through both
geodetic conversions (each output reuses the inputs). -/
def CwNan : Collab where
  pi := 0
  aer2enu := fun _ _ _ _ => (some 0, some 0, some 0)
  enu2uvw := fun _ _ _ _ _ _ => (some 0, some 0, some 1)
  geodetic2ecef := fun _ _ h _ => (h, h, h)
  ecef2geodetic := fun x y z _ => (x, y, z)

/-- Concrete collaborator instance whose four functions are constant, hence
trivially coherent between the degree and radian units. -/
def CwUnit : Collab where
  pi := 0
  aer2enu := fun _ _ _ _ => (some 0, some 0, some 0)
  enu2uvw := fun _ _ _ _ _ _ => (some 0, some 0, some 0)
  geodetic2ecef := fun _ _ _ _ => (some 0, some 0, some 0)
  ecef2geodetic := fun _ _ _ _ => (some 0, some 0, some 0)

/-! ## Helper lemmas -/

@[simp] theorem RF.ltZero_some (r : ℝ) : RF.ltZero (some r) ↔ r < 0 := Iff.rfl

@[simp] theorem RF.ltZero_none : ¬ RF.ltZero none := fun h => h

@[simp] theorem RF.add_some (a b : ℝ) : RF.add (some a) (some b) = some (a + b) := rfl

@[simp] theorem RF.add_none_left (y : RF) : RF.add none y = none := rfl

@[simp] theorem RF.add_none_right (x : RF) : RF.add x none = none := by
  cases x <;> rfl

@[simp] theorem RF.sub_some (a b : ℝ) : RF.sub (some a) (some b) = some (a - b) := rfl

@[simp] theorem RF.sub_none_left (y : RF) : RF.sub none y = none := rfl

@[simp] theorem RF.sub_none_right (x : RF) : RF.sub x none = none := by
  cases x <;> rfl

@[simp] theorem RF.mul_some (a b : ℝ) : RF.mul (some a) (some b) = some (a * b) := rfl

@[simp] theorem RF.mul_none_left (y : RF) : RF.mul none y = none := rfl

@[simp] theorem RF.mul_none_right (x : RF) : RF.mul x none = none := by
  cases x <;> rfl

@[simp] theorem RF.div_none_left (y : RF) : RF.div none y = none := rfl

@[simp] theorem RF.div_none_right (x : RF) : RF.div x none = none := by
  cases x <;> rfl

theorem RF.div_some (a b : ℝ) (hb : b ≠ 0) :
    RF.div (some a) (some b) = some (a / b) := by
  simp [RF.div, hb]

@[simp] theorem fpSqrt_none : fpSqrt none = none := rfl

theorem fpSqrt_nonneg (r : ℝ) (h : ¬ r < 0) : fpSqrt (some r) = some (Real.sqrt r) := by
  simp [fpSqrt, h]

theorem fpSqrt_neg (r : ℝ) (h : r < 0) : fpSqrt (some r) = none := by
  simp [fpSqrt, h]

@[simp] theorem RF.lift3_some (f : ℝ → ℝ → ℝ → ℝ) (a b c : ℝ) :
    RF.lift3 f (some a) (some b) (some c) = some (f a b c) := rfl

@[simp] theorem RF.lift6_some (f : ℝ → ℝ → ℝ → ℝ → ℝ → ℝ → ℝ) (x y z u v w : ℝ) :
    RF.lift6 f (some x) (some y) (some z) (some u) (some v) (some w)
      = some (f x y z u v w) := rfl

/-- When the discriminant element is negative the masked distance is the
sentinel, whatever the rest of the computation gives. -/
theorem losD_radNeg (a b c : ℝ) (x y z u v w : RF)
    (h : RF.ltZero (RF.lift6 (radical a b c) x y z u v w)) :
    losD a b c x y z u v w = none := by
  simp only [losD]
  rw [if_pos h]
  rw [if_neg RF.ltZero_none]

/-- Distance component of the per-element pipeline. -/
theorem losElem_d (C : Collab) (a b c : ℝ) (deg : Bool) (lat0 lon0 h0 az tilt : RF) :
    (losElem C a b c deg lat0 lon0 h0 az tilt).2.2 =
      losD a b c (C.geodetic2ecef lat0 lon0 h0 deg).1
        (C.geodetic2ecef lat0 lon0 h0 deg).2.1 (C.geodetic2ecef lat0 lon0 h0 deg).2.2
        (losUVW C deg lat0 lon0 az tilt).1 (losUVW C deg lat0 lon0 az tilt).2.1
        (losUVW C deg lat0 lon0 az tilt).2.2 := rfl

/-- Squeezing a list that does not have exactly one element keeps the array. -/
theorem squeeze_ne_one (l : List RF) (h : l.length ≠ 1) : squeeze l = .arr l := by
  match l with
  | [] => rfl
  | [x] => exact absurd rfl h
  | x :: y :: t => rfl

theorem getD_range_map (f : Nat → RF) (N i : Nat) (hi : i < N) :
    ((List.range N).map f).getD i none = f i := by
  simp [List.getD_eq_getElem?_getD, List.getElem?_range hi]

/-- Element access through the final squeeze recovers the per-index value. -/
theorem squeeze_map_elem (f : Nat → RF) (N i : Nat) (hi : i < N) :
    (squeeze ((List.range N).map f)).elem i = f i := by
  rcases N with _ | n
  · omega
  rcases n with _ | n
  · interval_cases i
    rfl
  · have hlen : ((List.range (n + 2)).map f).length ≠ 1 := by simp
    rw [squeeze_ne_one _ hlen]
    simp only [PyVal.elem]
    rw [if_neg (by simp)]
    exact getD_range_map f _ i hi

/-- Guard reduction: when `bool(h0 < 0)` evaluates to false, the call reaches
the body. -/
theorem lookAt_guardOk (C : Collab) (lat0 lon0 h0 az tilt : PyVal)
    (ell : Option Ellipsoid) (deg : Bool) (hg : guardOk h0) :
    lookAtSpheroid C lat0 lon0 h0 az tilt ell deg
      = losBody C lat0 lon0 h0 az tilt ell deg := by
  match h0 with
  | .scalar x =>
    simp only [lookAtSpheroid]
    rw [if_neg hg]
  | .arr [] => exact absurd hg (fun h => h)
  | .arr [x] =>
    simp only [lookAtSpheroid]
    rw [if_neg hg]
  | .arr (x :: y :: t) => exact absurd hg (fun h => h)

/-- Full reduction of a call that passes the guard and broadcasts to a common
length `N`. -/
theorem lookAt_ok (C : Collab) (lat0 lon0 h0 az tilt : PyVal)
    (ell : Option Ellipsoid) (deg : Bool) (N : Nat) (hg : guardOk h0)
    (hN : commonLen [atleast_1d lat0, atleast_1d lon0, h0, az, atleast_1d tilt]
      = some N) :
    lookAtSpheroid C lat0 lon0 h0 az tilt ell deg =
      .ok (squeeze ((List.range N).map fun i => (bodyF C lat0 lon0 h0 az tilt ell deg i).1),
        squeeze ((List.range N).map fun i => (bodyF C lat0 lon0 h0 az tilt ell deg i).2.1),
        squeeze ((List.range N).map fun i => (bodyF C lat0 lon0 h0 az tilt ell deg i).2.2)) := by
  rw [lookAt_guardOk C lat0 lon0 h0 az tilt ell deg hg]
  unfold losBody
  rw [hN]

/-- Element-level view of a successful call: each output element is the
per-element pipeline applied to the corresponding input elements. -/
theorem lookAt_elem (C : Collab) (lat0 lon0 h0 az tilt : PyVal)
    (ell : Option Ellipsoid) (deg : Bool) (N i : Nat) (hg : guardOk h0)
    (hN : commonLen [atleast_1d lat0, atleast_1d lon0, h0, az, atleast_1d tilt]
      = some N) (hi : i < N) :
    ∃ la lo dd, lookAtSpheroid C lat0 lon0 h0 az tilt ell deg = .ok (la, lo, dd)
      ∧ la.elem i = (bodyF C lat0 lon0 h0 az tilt ell deg i).1
      ∧ lo.elem i = (bodyF C lat0 lon0 h0 az tilt ell deg i).2.1
      ∧ dd.elem i = (bodyF C lat0 lon0 h0 az tilt ell deg i).2.2 := by
  refine ⟨_, _, _, lookAt_ok C lat0 lon0 h0 az tilt ell deg N hg hN, ?_, ?_, ?_⟩
  · exact squeeze_map_elem _ N i hi
  · exact squeeze_map_elem _ N i hi
  · exact squeeze_map_elem _ N i hi

/-- Per-element pipeline with a negative discriminant: the distance is the
sentinel, and under sentinel propagation of `ecef2geodetic` so are the
geodetic outputs. -/
theorem losElem_radNeg (C : Collab) (a b c : ℝ) (deg : Bool)
    (lat0 lon0 h0 az tilt : RF)
    (hprop : ∀ dg : Bool, C.ecef2geodetic none none none dg = (none, none, none))
    (hrad : RF.ltZero (radAt C a b c deg lat0 lon0 h0 az tilt)) :
    losElem C a b c deg lat0 lon0 h0 az tilt = (none, none, none) := by
  simp only [radAt] at hrad
  have hd := losD_radNeg a b c (C.geodetic2ecef lat0 lon0 h0 deg).1
    (C.geodetic2ecef lat0 lon0 h0 deg).2.1 (C.geodetic2ecef lat0 lon0 h0 deg).2.2
    (losUVW C deg lat0 lon0 az tilt).1 (losUVW C deg lat0 lon0 az tilt).2.1
    (losUVW C deg lat0 lon0 az tilt).2.2 hrad
  simp only [losElem]
  rw [hd]
  simp only [RF.mul_none_left, RF.add_none_right]
  rw [hprop deg]

/-- Per-element pipeline with a NaN altitude: the observer conversion, the
solver and the back conversion all propagate the sentinel. -/
theorem losElem_h0none (C : Collab) (a b c : ℝ) (deg : Bool) (lat0 lon0 az tilt : RF)
    (hg2e : ∀ la lo (dg : Bool), C.geodetic2ecef la lo none dg = (none, none, none))
    (he2g : ∀ dg : Bool, C.ecef2geodetic none none none dg = (none, none, none)) :
    losElem C a b c deg lat0 lon0 none az tilt = (none, none, none) := by
  simp only [losElem, losD]
  rw [hg2e lat0 lon0 deg]
  simp only [RF.lift6, RF.lift3, Option.none_bind, RF.sub_none_left, RF.div_none_left]
  rw [if_neg RF.ltZero_none, if_neg RF.ltZero_none]
  simp only [RF.mul_none_left, RF.add_none_right]
  rw [he2g deg]

/-! ## Claims -/

/-- C1: for every input reaching the solver on which the discriminant
`radical` is negative, `lookAtSpheroid` raises no exception and returns the
NaN sentinel for latitude, longitude and slant range, per affected element of
a batch.  Sentinel propagation through the out-of-scope `ecef2geodetic`
collaborator is assumed as the spec states it. -/
theorem claim1_radical_negative_gives_nan (C : Collab)
    (hprop : ∀ dg : Bool, C.ecef2geodetic none none none dg = (none, none, none))
    (lat0 lon0 h0 az tilt : PyVal) (ell : Option Ellipsoid) (deg : Bool) (N i : Nat)
    (hg : guardOk h0)
    (hN : commonLen [atleast_1d lat0, atleast_1d lon0, h0, az, atleast_1d tilt]
      = some N)
    (hi : i < N)
    (hrad : RF.ltZero (radAt C (ellResolve ell).semimajor_axis
      (ellResolve ell).semimajor_axis (ellResolve ell).semiminor_axis deg
      ((atleast_1d lat0).elem i) ((atleast_1d lon0).elem i) (h0.elem i)
      (az.elem i) ((atleast_1d tilt).elem i))) :
    ∃ la lo dd, lookAtSpheroid C lat0 lon0 h0 az tilt ell deg = .ok (la, lo, dd)
      ∧ la.elem i = none ∧ lo.elem i = none ∧ dd.elem i = none := by
  obtain ⟨la, lo, dd, heq, h1, h2, h3⟩ :=
    lookAt_elem C lat0 lon0 h0 az tilt ell deg N i hg hN hi
  have hb : bodyF C lat0 lon0 h0 az tilt ell deg i = (none, none, none) :=
    losElem_radNeg C _ _ _ deg _ _ _ _ _ hprop hrad
  rw [hb] at h1 h2 h3
  exact ⟨la, lo, dd, heq, h1, h2, h3⟩

/-- Witness for C1 at a concrete input: the `CwMiss` collaborators place the
observer at ECEF `(3,0,0)` pointing along `(0,0,1)`; for the `⟨2,1⟩`
ellipsoid the discriminant is `-20 < 0` and all three outputs are NaN. -/
theorem claim1_witness :
    (∀ dg : Bool, CwMiss.ecef2geodetic none none none dg = (none, none, none))
    ∧ guardOk (.scalar (some 5))
    ∧ commonLen [atleast_1d (.scalar (some 0)), atleast_1d (.scalar (some 0)),
        .scalar (some 5), .scalar (some 0), atleast_1d (.scalar (some 0))] = some 1
    ∧ RF.ltZero (radAt CwMiss (ellResolve (some ⟨2, 1⟩)).semimajor_axis
        (ellResolve (some ⟨2, 1⟩)).semimajor_axis
        (ellResolve (some ⟨2, 1⟩)).semiminor_axis true
        ((atleast_1d (.scalar (some 0))).elem 0) ((atleast_1d (.scalar (some 0))).elem 0)
        ((PyVal.scalar (some 5)).elem 0) ((PyVal.scalar (some 0)).elem 0)
        ((atleast_1d (.scalar (some 0))).elem 0))
    ∧ (∃ la lo dd, lookAtSpheroid CwMiss (.scalar (some 0)) (.scalar (some 0))
        (.scalar (some 5)) (.scalar (some 0)) (.scalar (some 0)) (some ⟨2, 1⟩) true
        = .ok (la, lo, dd) ∧ la.elem 0 = none ∧ lo.elem 0 = none ∧ dd.elem 0 = none) := by
  have hprop : ∀ dg : Bool, CwMiss.ecef2geodetic none none none dg = (none, none, none) :=
    fun _ => rfl
  have hg : guardOk (.scalar (some 5)) := by
    simp only [guardOk, RF.ltZero_some]
    norm_num
  have hN : commonLen [atleast_1d (.scalar (some 0)), atleast_1d (.scalar (some 0)),
      .scalar (some 5), .scalar (some 0), atleast_1d (.scalar (some 0))] = some 1 := rfl
  have hrad : RF.ltZero (radAt CwMiss (ellResolve (some ⟨2, 1⟩)).semimajor_axis
      (ellResolve (some ⟨2, 1⟩)).semimajor_axis
      (ellResolve (some ⟨2, 1⟩)).semiminor_axis true
      ((atleast_1d (.scalar (some 0))).elem 0) ((atleast_1d (.scalar (some 0))).elem 0)
      ((PyVal.scalar (some 5)).elem 0) ((PyVal.scalar (some 0)).elem 0)
      ((atleast_1d (.scalar (some 0))).elem 0)) := by
    show RF.ltZero (radAt CwMiss 2 2 1 true (some 0) (some 0) (some 5) (some 0) (some 0))
    simp only [radAt, losUVW, CwMiss, RF.lift6_some, RF.ltZero_some]
    norm_num [radical]
  exact ⟨hprop, hg, hN, hrad,
    claim1_radical_negative_gives_nan CwMiss hprop _ _ _ _ _ (some ⟨2, 1⟩) true 1 0
      hg hN (by norm_num) hrad⟩

/-- C4: a negative scalar altitude fails with the invalid-altitude
`ValueError` whatever the other arguments, the ellipsoid and the unit flag
are; the error is produced before any collaborator call or solver arithmetic
(the right-hand side does not depend on `C`). -/
theorem claim4_negative_altitude_error (C : Collab) (lat0 lon0 az tilt : PyVal)
    (ell : Option Ellipsoid) (deg : Bool) (x : RF) (hx : RF.ltZero x) :
    lookAtSpheroid C lat0 lon0 (.scalar x) az tilt ell deg
      = .error .invalidAltitude := by
  simp only [lookAtSpheroid]
  rw [if_pos hx]

/-- Witness for C4 at the concrete altitude `-1`. -/
theorem claim4_witness :
    RF.ltZero (some (-1))
    ∧ lookAtSpheroid CwHit (.scalar (some 0)) (.scalar (some 0)) (.scalar (some (-1)))
        (.scalar (some 0)) (.scalar (some 0)) none true = .error .invalidAltitude := by
  have hx : RF.ltZero (some (-1)) := by
    simp only [RF.ltZero_some]
    norm_num
  exact ⟨hx, claim4_negative_altitude_error CwHit _ _ _ _ none true _ hx⟩

/-- C8: the divisor `magnitude` is strictly positive for positive semi-axes
and a nonzero direction vector, so the division producing `d` never divides
by zero. -/
theorem claim8_magnitude_positive (a b c u v w : ℝ) (ha : 0 < a) (hb : 0 < b)
    (hc : 0 < c) (hne : (u, v, w) ≠ (0, 0, 0)) : 0 < magnitude a b c u v w := by
  have h : u ≠ 0 ∨ v ≠ 0 ∨ w ≠ 0 := by
    by_contra hcon
    push_neg at hcon
    exact hne (by simp [hcon.1, hcon.2.1, hcon.2.2])
  have h2 : 0 ≤ a ^ 2 * b ^ 2 * w ^ 2 := by positivity
  have h3 : 0 ≤ a ^ 2 * c ^ 2 * v ^ 2 := by positivity
  have h4 : 0 ≤ b ^ 2 * c ^ 2 * u ^ 2 := by positivity
  unfold magnitude
  rcases h with hu | hv | hw
  · have h5 : 0 < b ^ 2 * c ^ 2 * u ^ 2 :=
      mul_pos (mul_pos (pow_pos hb 2) (pow_pos hc 2)) (pow_two_pos_of_ne_zero hu)
    linarith
  · have h5 : 0 < a ^ 2 * c ^ 2 * v ^ 2 :=
      mul_pos (mul_pos (pow_pos ha 2) (pow_pos hc 2)) (pow_two_pos_of_ne_zero hv)
    linarith
  · have h5 : 0 < a ^ 2 * b ^ 2 * w ^ 2 :=
      mul_pos (mul_pos (pow_pos ha 2) (pow_pos hb 2)) (pow_two_pos_of_ne_zero hw)
    linarith

/-- Witness for C8 at the concrete axes `(2, 2, 1)` and direction `(1, 0, 0)`. -/
theorem claim8_witness : 0 < magnitude 2 2 1 1 0 0 :=
  claim8_magnitude_positive 2 2 1 1 0 0 (by norm_num) (by norm_num) (by norm_num)
    (by norm_num [Prod.ext_iff])

/-- C9: a scalar NaN altitude passes the guard (`NaN < 0` is false), no
invalid-altitude error is raised, and the sentinel propagates so that every
element of all three outputs is NaN.  Sentinel propagation through the
out-of-scope converters is assumed as the spec states it. -/
theorem claim9_nan_altitude_propagates (C : Collab)
    (hg2e : ∀ la lo (dg : Bool), C.geodetic2ecef la lo none dg = (none, none, none))
    (he2g : ∀ dg : Bool, C.ecef2geodetic none none none dg = (none, none, none))
    (lat0 lon0 az tilt : PyVal) (ell : Option Ellipsoid) (deg : Bool) (N i : Nat)
    (hN : commonLen [atleast_1d lat0, atleast_1d lon0, .scalar none, az,
      atleast_1d tilt] = some N)
    (hi : i < N) :
    ∃ la lo dd, lookAtSpheroid C lat0 lon0 (.scalar none) az tilt ell deg
        = .ok (la, lo, dd)
      ∧ la.elem i = none ∧ lo.elem i = none ∧ dd.elem i = none := by
  have hg : guardOk (.scalar none) := RF.ltZero_none
  obtain ⟨la, lo, dd, heq, h1, h2, h3⟩ :=
    lookAt_elem C lat0 lon0 (.scalar none) az tilt ell deg N i hg hN hi
  have hb : bodyF C lat0 lon0 (.scalar none) az tilt ell deg i = (none, none, none) := by
    show losElem C _ _ _ deg _ _ ((PyVal.scalar none).elem i) _ _ = (none, none, none)
    exact losElem_h0none C _ _ _ deg _ _ _ _ hg2e he2g
  rw [hb] at h1 h2 h3
  exact ⟨la, lo, dd, heq, h1, h2, h3⟩

/-- Witness for C9 at a concrete input with the `CwNan` collaborators. -/
theorem claim9_witness :
    (∀ la lo (dg : Bool), CwNan.geodetic2ecef la lo none dg = (none, none, none))
    ∧ (∀ dg : Bool, CwNan.ecef2geodetic none none none dg = (none, none, none))
    ∧ commonLen [atleast_1d (.scalar (some 0)), atleast_1d (.scalar (some 0)),
        .scalar none, .scalar (some 0), atleast_1d (.scalar (some 0))] = some 1
    ∧ (∃ la lo dd, lookAtSpheroid CwNan (.scalar (some 0)) (.scalar (some 0))
        (.scalar none) (.scalar (some 0)) (.scalar (some 0)) none true = .ok (la, lo, dd)
        ∧ la.elem 0 = none ∧ lo.elem 0 = none ∧ dd.elem 0 = none) := by
  have hg2e : ∀ la lo (dg : Bool), CwNan.geodetic2ecef la lo none dg
      = (none, none, none) := fun _ _ _ => rfl
  have he2g : ∀ dg : Bool, CwNan.ecef2geodetic none none none dg
      = (none, none, none) := fun _ => rfl
  exact ⟨hg2e, he2g, rfl,
    claim9_nan_altitude_propagates CwNan hg2e he2g _ _ _ _ none true 1 0 rfl
      (by norm_num)⟩

/-- C10: when the altitude argument is an array of two or more elements, the
truth test `if h0 < 0` on a multi-element boolean array raises, whatever the
element values are. -/
theorem claim10_multielement_altitude_raises (C : Collab) (lat0 lon0 az tilt : PyVal)
    (ell : Option Ellipsoid) (deg : Bool) (l : List RF) (hl : 2 ≤ l.length) :
    lookAtSpheroid C lat0 lon0 (.arr l) az tilt ell deg = .error .ambiguousTruth := by
  rcases l with _ | ⟨x, _ | ⟨y, t⟩⟩
  · simp at hl
  · simp at hl
  · rfl

/-- Witness for C10 with the all-non-negative two-element altitude `[0, 1]`. -/
theorem claim10_witness :
    2 ≤ ([some 0, some 1] : List RF).length
    ∧ lookAtSpheroid CwHit (.scalar (some 0)) (.scalar (some 0))
        (.arr [some 0, some 1]) (.scalar (some 0)) (.scalar (some 0)) none true
        = .error .ambiguousTruth :=
  ⟨by norm_num,
    claim10_multielement_altitude_raises CwHit _ _ _ _ none true _ (by norm_num)⟩

/-- Inversion of a non-sentinel solver result: all stage inputs are finite,
the discriminant is non-negative, the divisor is nonzero, and the result is
the near root, which is non-negative. -/
theorem losD_some (a b c : ℝ) (x y z u v w : RF) (r : ℝ)
    (h : losD a b c x y z u v w = some r) :
    ∃ xr yr zr ur vr wr, x = some xr ∧ y = some yr ∧ z = some zr ∧ u = some ur
      ∧ v = some vr ∧ w = some wr
      ∧ 0 ≤ radical a b c xr yr zr ur vr wr
      ∧ magnitude a b c ur vr wr ≠ 0
      ∧ r = (value a b c xr yr zr ur vr wr
          - a * b * c * Real.sqrt (radical a b c xr yr zr ur vr wr))
          / magnitude a b c ur vr wr
      ∧ 0 ≤ r := by
  rcases x with _ | xr
  · simp [losD, RF.lift6, RF.lift3, RF.ltZero_none] at h
  rcases y with _ | yr
  · simp [losD, RF.lift6, RF.lift3, RF.ltZero_none] at h
  rcases z with _ | zr
  · simp [losD, RF.lift6, RF.lift3, RF.ltZero_none] at h
  rcases u with _ | ur
  · simp [losD, RF.lift6, RF.lift3, RF.ltZero_none] at h
  rcases v with _ | vr
  · simp [losD, RF.lift6, RF.lift3, RF.ltZero_none] at h
  rcases w with _ | wr
  · simp [losD, RF.lift6, RF.lift3, RF.ltZero_none] at h
  refine ⟨xr, yr, zr, ur, vr, wr, rfl, rfl, rfl, rfl, rfl, rfl, ?_⟩
  simp only [losD, RF.lift6_some, RF.lift3_some] at h
  by_cases hR : radical a b c xr yr zr ur vr wr < 0
  · rw [if_pos ((RF.ltZero_some _).mpr hR), if_neg RF.ltZero_none] at h
    exact absurd h Option.noConfusion
  · rw [if_neg ((RF.ltZero_some _).not.mpr hR), fpSqrt_nonneg _ hR,
      RF.mul_some, RF.sub_some] at h
    by_cases hM : magnitude a b c ur vr wr = 0
    · simp [RF.div, hM, RF.ltZero_none] at h
    · rw [RF.div_some _ _ hM] at h
      by_cases hd : (value a b c xr yr zr ur vr wr
          - a * b * c * Real.sqrt (radical a b c xr yr zr ur vr wr))
          / magnitude a b c ur vr wr < 0
      · rw [if_pos ((RF.ltZero_some _).mpr hd)] at h
        exact absurd h Option.noConfusion
      · rw [if_neg ((RF.ltZero_some _).not.mpr hd)] at h
        have hr := Option.some_injective ℝ h
        refine ⟨not_lt.mp hR, hM, hr.symm, ?_⟩
        rw [← hr]
        exact not_lt.mp hd

/-- C3: whenever the call returns a non-sentinel slant range, that value is
the near root `(value - a·b·c·√radical) / magnitude` of the ray–ellipsoid
quadratic, the discriminant is non-negative, and the value is less than or
equal to the far root `(value + a·b·c·√radical) / magnitude`. -/
theorem claim3_near_root_selected (C : Collab) (lat0 lon0 h0 az tilt : PyVal)
    (e : Ellipsoid) (hae : 0 < e.semimajor_axis) (hce : 0 < e.semiminor_axis)
    (deg : Bool) (N i : Nat) (hg : guardOk h0)
    (hN : commonLen [atleast_1d lat0, atleast_1d lon0, h0, az, atleast_1d tilt]
      = some N)
    (hi : i < N) (la lo dd : PyVal) (r : ℝ)
    (hcall : lookAtSpheroid C lat0 lon0 h0 az tilt (some e) deg = .ok (la, lo, dd))
    (hr : dd.elem i = some r) :
    ∃ xr yr zr ur vr wr,
      C.geodetic2ecef ((atleast_1d lat0).elem i) ((atleast_1d lon0).elem i)
          (h0.elem i) deg = (some xr, some yr, some zr)
      ∧ losUVW C deg ((atleast_1d lat0).elem i) ((atleast_1d lon0).elem i)
          (az.elem i) ((atleast_1d tilt).elem i) = (some ur, some vr, some wr)
      ∧ 0 ≤ radical e.semimajor_axis e.semimajor_axis e.semiminor_axis
          xr yr zr ur vr wr
      ∧ 0 < magnitude e.semimajor_axis e.semimajor_axis e.semiminor_axis ur vr wr
      ∧ r = (value e.semimajor_axis e.semimajor_axis e.semiminor_axis xr yr zr ur vr wr
          - e.semimajor_axis * e.semimajor_axis * e.semiminor_axis
            * Real.sqrt (radical e.semimajor_axis e.semimajor_axis e.semiminor_axis
              xr yr zr ur vr wr))
          / magnitude e.semimajor_axis e.semimajor_axis e.semiminor_axis ur vr wr
      ∧ r ≤ (value e.semimajor_axis e.semimajor_axis e.semiminor_axis xr yr zr ur vr wr
          + e.semimajor_axis * e.semimajor_axis * e.semiminor_axis
            * Real.sqrt (radical e.semimajor_axis e.semimajor_axis e.semiminor_axis
              xr yr zr ur vr wr))
          / magnitude e.semimajor_axis e.semimajor_axis e.semiminor_axis ur vr wr := by
  obtain ⟨la2, lo2, dd2, heq, h1, h2, h3⟩ :=
    lookAt_elem C lat0 lon0 h0 az tilt (some e) deg N i hg hN hi
  rw [hcall] at heq
  obtain ⟨rfl, rfl, rfl⟩ : la = la2 ∧ lo = lo2 ∧ dd = dd2 := by
    have := Except.ok.inj heq
    exact ⟨congrArg Prod.fst this, congrArg (fun p => p.2.1) this,
      congrArg (fun p => p.2.2) this⟩
  rw [h3] at hr
  have hsemi : ellResolve (some e) = e := rfl
  have hd : losD e.semimajor_axis e.semimajor_axis e.semiminor_axis
      (C.geodetic2ecef ((atleast_1d lat0).elem i) ((atleast_1d lon0).elem i)
        (h0.elem i) deg).1
      (C.geodetic2ecef ((atleast_1d lat0).elem i) ((atleast_1d lon0).elem i)
        (h0.elem i) deg).2.1
      (C.geodetic2ecef ((atleast_1d lat0).elem i) ((atleast_1d lon0).elem i)
        (h0.elem i) deg).2.2
      (losUVW C deg ((atleast_1d lat0).elem i) ((atleast_1d lon0).elem i)
        (az.elem i) ((atleast_1d tilt).elem i)).1
      (losUVW C deg ((atleast_1d lat0).elem i) ((atleast_1d lon0).elem i)
        (az.elem i) ((atleast_1d tilt).elem i)).2.1
      (losUVW C deg ((atleast_1d lat0).elem i) ((atleast_1d lon0).elem i)
        (az.elem i) ((atleast_1d tilt).elem i)).2.2 = some r := hr
  obtain ⟨xr, yr, zr, ur, vr, wr, hx, hy, hz, hu, hv, hw, hRnn, hMne, hrv, hrnn⟩ :=
    losD_some _ _ _ _ _ _ _ _ _ _ hd
  have hMnn : 0 ≤ magnitude e.semimajor_axis e.semimajor_axis e.semiminor_axis
      ur vr wr := by
    unfold magnitude
    positivity
  have hMpos : 0 < magnitude e.semimajor_axis e.semimajor_axis e.semiminor_axis
      ur vr wr := lt_of_le_of_ne hMnn (Ne.symm hMne)
  have hs : 0 ≤ e.semimajor_axis * e.semimajor_axis * e.semiminor_axis
      * Real.sqrt (radical e.semimajor_axis e.semimajor_axis e.semiminor_axis
        xr yr zr ur vr wr) := by
    have := Real.sqrt_nonneg (radical e.semimajor_axis e.semimajor_axis
      e.semiminor_axis xr yr zr ur vr wr)
    positivity
  refine ⟨xr, yr, zr, ur, vr, wr, ?_, ?_, hRnn, hMpos, hrv, ?_⟩
  · exact Prod.ext hx (Prod.ext hy hz)
  · exact Prod.ext hu (Prod.ext hv hw)
  · rw [hrv, div_le_div_iff₀ hMpos hMpos]
    nlinarith [hs, hMpos]

/-- Square root of four, used to evaluate witnesses. -/
theorem sqrt_four : Real.sqrt 4 = 2 := by
  rw [show (4 : ℝ) = 2 ^ 2 by norm_num, Real.sqrt_sq (by norm_num : (0 : ℝ) ≤ 2)]

/-- Evaluation of the per-element pipeline on the `CwHit` collaborators and
the `⟨2, 1⟩` ellipsoid: the ray from `(-3, 0, 0)` along `(1, 0, 0)` enters the
surface at distance `1`, at the point `(-2, 0, 0)`. -/
theorem CwHit_losElem :
    losElem CwHit 2 2 1 true (some 0) (some 0) (some 5) (some 0) (some 0)
      = (some (-2), some 0, some 1) := by
  norm_num [losElem, losUVW, losD, CwHit, RF.lift6, RF.lift3, RF.add, RF.mul,
    RF.sub, RF.div, fpSqrt, RF.ltZero, value, radical, magnitude, sqrt_four]

/-- Evaluation of the full façade call on the `CwHit` collaborators. -/
theorem CwHit_call :
    lookAtSpheroid CwHit (.scalar (some 0)) (.scalar (some 0)) (.scalar (some 5))
      (.scalar (some 0)) (.scalar (some 0)) (some ⟨2, 1⟩) true
      = .ok (.scalar (some (-2)), .scalar (some 0), .scalar (some 1)) := by
  have hg : guardOk (.scalar (some 5)) := by
    simp only [guardOk, RF.ltZero_some]
    norm_num
  rw [lookAt_ok CwHit (.scalar (some 0)) (.scalar (some 0)) (.scalar (some 5))
    (.scalar (some 0)) (.scalar (some 0)) (some ⟨2, 1⟩) true 1 hg rfl]
  have hb : bodyF CwHit (.scalar (some 0)) (.scalar (some 0)) (.scalar (some 5))
      (.scalar (some 0)) (.scalar (some 0)) (some ⟨2, 1⟩) true 0
      = (some (-2), some 0, some 1) := CwHit_losElem
  simp [show List.range 1 = [0] from rfl, squeeze, hb]

/-- Witness for C3 with the `CwHit` collaborators: the call returns the slant
range `1`, which is the near root `(12 - 4·√4)/4` of the quadratic and is not
larger than the far root `(12 + 4·√4)/4 = 5`. -/
theorem claim3_witness :
    lookAtSpheroid CwHit (.scalar (some 0)) (.scalar (some 0)) (.scalar (some 5))
      (.scalar (some 0)) (.scalar (some 0)) (some ⟨2, 1⟩) true
      = .ok (.scalar (some (-2)), .scalar (some 0), .scalar (some 1))
    ∧ (PyVal.scalar (some 1)).elem 0 = some 1
    ∧ (∃ xr yr zr ur vr wr,
      CwHit.geodetic2ecef (some 0) (some 0) (some 5) true = (some xr, some yr, some zr)
      ∧ losUVW CwHit true (some 0) (some 0) (some 0) (some 0)
          = (some ur, some vr, some wr)
      ∧ 0 ≤ radical 2 2 1 xr yr zr ur vr wr
      ∧ 0 < magnitude 2 2 1 ur vr wr
      ∧ (1 : ℝ) = (value 2 2 1 xr yr zr ur vr wr
          - 2 * 2 * 1 * Real.sqrt (radical 2 2 1 xr yr zr ur vr wr))
          / magnitude 2 2 1 ur vr wr
      ∧ (1 : ℝ) ≤ (value 2 2 1 xr yr zr ur vr wr
          + 2 * 2 * 1 * Real.sqrt (radical 2 2 1 xr yr zr ur vr wr))
          / magnitude 2 2 1 ur vr wr) := by
  refine ⟨CwHit_call, rfl, ?_⟩
  exact claim3_near_root_selected CwHit (.scalar (some 0)) (.scalar (some 0))
    (.scalar (some 5)) (.scalar (some 0)) (.scalar (some 0)) ⟨2, 1⟩
    (by norm_num) (by norm_num) true 1 0
    (by simp only [guardOk, RF.ltZero_some]; norm_num) rfl (by norm_num)
    (.scalar (some (-2))) (.scalar (some 0)) (.scalar (some 1)) 1 CwHit_call rfl

/-- C2 (code-bug evidence): in the numpy-less fallback path the `d < 0` mask
is skipped (the float mask assignment raises `TypeError`, swallowed by
`pass`), so a ray pointing away from the ellipsoid — observer ECEF
`(3, 0, 0)`, direction `(1, 0, 0)`, ellipsoid `⟨2, 1⟩`, where `radical = 4 ≥ 0`
but both roots are behind the observer — returns the negative slant range
`-5` instead of the sentinel, contradicting the source comment at line 107
and the docstring. -/
theorem claim2_nonumpy_negative_range :
    lookAtSpheroid_nonumpy CwAway (some 0) (some 0) (some 1) (some 0) (some 180)
      (some ⟨2, 1⟩) true = .ok (some (-2), some 0, some (-5)) ∧ (-5 : ℝ) < 0 := by
  constructor
  · norm_num [lookAtSpheroid_nonumpy, losUVW, CwAway, ellResolve, RF.lift6, RF.lift3,
      RF.add, RF.mul, RF.sub, RF.div, fpSqrt, RF.ltZero, value, radical, magnitude,
      sqrt_four]
  · norm_num

/-- Evaluation of the per-element pipeline on the `CwMiss` collaborators and
the `⟨2, 1⟩` ellipsoid: the discriminant is `-20 < 0`, all outputs are NaN. -/
theorem CwMiss_losElem :
    losElem CwMiss 2 2 1 true (some 0) (some 0) (some 5) (some 0) (some 0)
      = (none, none, none) := by
  norm_num [losElem, losUVW, losD, CwMiss, RF.lift6, RF.lift3, RF.add, RF.mul,
    RF.sub, RF.div, fpSqrt, RF.ltZero, value, radical, magnitude]

/-- C5 counterexample: an array input of shape `(1,)` (here `lat0 = [0]`)
does not produce arrays of that shape — the final `squeeze()[()]` collapses
the single-element outputs to scalars. -/
theorem claim5_counterexample :
    lookAtSpheroid CwMiss (.arr [some 0]) (.scalar (some 0)) (.scalar (some 5))
      (.scalar (some 0)) (.scalar (some 0)) (some ⟨2, 1⟩) true
      = .ok (.scalar none, .scalar none, .scalar none) := by
  have hg : guardOk (.scalar (some 5)) := by
    simp only [guardOk, RF.ltZero_some]
    norm_num
  rw [lookAt_ok CwMiss (.arr [some 0]) (.scalar (some 0)) (.scalar (some 5))
    (.scalar (some 0)) (.scalar (some 0)) (some ⟨2, 1⟩) true 1 hg rfl]
  have hb : bodyF CwMiss (.arr [some 0]) (.scalar (some 0)) (.scalar (some 5))
      (.scalar (some 0)) (.scalar (some 0)) (some ⟨2, 1⟩) true 0
      = (none, none, none) := CwMiss_losElem
  simp [show List.range 1 = [0] from rfl, squeeze, hb]

/-- C5 as amended: inputs broadcast to a common length `N`; each output
element `i` is the per-element pipeline applied to element `i` of each
broadcast input (so element `i` depends on no other element); when `N = 1`
— scalar inputs, but also single-element arrays — the outputs are scalars,
and when `N ≠ 1` the outputs are arrays of length `N`. -/
theorem claim5_shape_and_elementwise (C : Collab) (lat0 lon0 h0 az tilt : PyVal)
    (ell : Option Ellipsoid) (deg : Bool) (N : Nat) (hg : guardOk h0)
    (hN : commonLen [atleast_1d lat0, atleast_1d lon0, h0, az, atleast_1d tilt]
      = some N) :
    ∃ la lo dd, lookAtSpheroid C lat0 lon0 h0 az tilt ell deg = .ok (la, lo, dd)
      ∧ (∀ i, i < N →
          la.elem i = (losElem C (ellResolve ell).semimajor_axis
            (ellResolve ell).semimajor_axis (ellResolve ell).semiminor_axis deg
            ((atleast_1d lat0).elem i) ((atleast_1d lon0).elem i) (h0.elem i)
            (az.elem i) ((atleast_1d tilt).elem i)).1
          ∧ lo.elem i = (losElem C (ellResolve ell).semimajor_axis
            (ellResolve ell).semimajor_axis (ellResolve ell).semiminor_axis deg
            ((atleast_1d lat0).elem i) ((atleast_1d lon0).elem i) (h0.elem i)
            (az.elem i) ((atleast_1d tilt).elem i)).2.1
          ∧ dd.elem i = (losElem C (ellResolve ell).semimajor_axis
            (ellResolve ell).semimajor_axis (ellResolve ell).semiminor_axis deg
            ((atleast_1d lat0).elem i) ((atleast_1d lon0).elem i) (h0.elem i)
            (az.elem i) ((atleast_1d tilt).elem i)).2.2)
      ∧ (N = 1 → ∃ r1 r2 r3, la = .scalar r1 ∧ lo = .scalar r2 ∧ dd = .scalar r3)
      ∧ (N ≠ 1 → ∃ l1 l2 l3, la = .arr l1 ∧ lo = .arr l2 ∧ dd = .arr l3
          ∧ l1.length = N ∧ l2.length = N ∧ l3.length = N) := by
  refine ⟨_, _, _, lookAt_ok C lat0 lon0 h0 az tilt ell deg N hg hN, ?_, ?_, ?_⟩
  · intro i hi
    exact ⟨squeeze_map_elem _ N i hi, squeeze_map_elem _ N i hi,
      squeeze_map_elem _ N i hi⟩
  · rintro rfl
    exact ⟨_, _, _, rfl, rfl, rfl⟩
  · intro hne
    have hlen : ∀ g : Nat → RF, ((List.range N).map g).length = N := by
      intro g
      simp
    refine ⟨_, _, _, squeeze_ne_one _ (by rw [hlen]; exact hne),
      squeeze_ne_one _ (by rw [hlen]; exact hne),
      squeeze_ne_one _ (by rw [hlen]; exact hne), hlen _, hlen _, hlen _⟩

/-- Witness for the amended C5: a scalar-input call (`N = 1`) on the
`CwMiss` collaborators. -/
theorem claim5_witness :
    guardOk (.scalar (some 5))
    ∧ commonLen [atleast_1d (.scalar (some 0)), atleast_1d (.scalar (some 0)),
        .scalar (some 5), .scalar (some 0), atleast_1d (.scalar (some 0))] = some 1
    ∧ (∃ la lo dd, lookAtSpheroid CwMiss (.scalar (some 0)) (.scalar (some 0))
        (.scalar (some 5)) (.scalar (some 0)) (.scalar (some 0)) (some ⟨2, 1⟩) true
        = .ok (la, lo, dd)
      ∧ (∀ i, i < 1 →
          la.elem i = (losElem CwMiss 2 2 1 true (some 0) (some 0) (some 5)
            (some 0) (some 0)).1
          ∧ lo.elem i = (losElem CwMiss 2 2 1 true (some 0) (some 0) (some 5)
            (some 0) (some 0)).2.1
          ∧ dd.elem i = (losElem CwMiss 2 2 1 true (some 0) (some 0) (some 5)
            (some 0) (some 0)).2.2)
      ∧ ((1 : Nat) = 1 → ∃ r1 r2 r3, la = .scalar r1 ∧ lo = .scalar r2
          ∧ dd = .scalar r3)
      ∧ ((1 : Nat) ≠ 1 → ∃ l1 l2 l3, la = .arr l1 ∧ lo = .arr l2 ∧ dd = .arr l3
          ∧ l1.length = 1 ∧ l2.length = 1 ∧ l3.length = 1)) := by
  have hg : guardOk (.scalar (some 5)) := by
    simp only [guardOk, RF.ltZero_some]
    norm_num
  exact ⟨hg, rfl,
    claim5_shape_and_elementwise CwMiss (.scalar (some 0)) (.scalar (some 0))
      (.scalar (some 5)) (.scalar (some 0)) (.scalar (some 0)) (some ⟨2, 1⟩) true 1
      hg rfl⟩

/-- Refinement of the source's solver to the spec's general triaxial
quadratic: with both equatorial semi-axes set to `A` and the polar semi-axis
to `B`, the source's masked near-root formula computes exactly the spec's
general triaxial near root. -/
theorem losD_eq_specTriD (A B : ℝ) (hA : 0 < A) (hB : 0 < B) (x y z u v w : RF) :
    losD A A B x y z u v w = specTriD A A B x y z u v w := by
  rcases x with _ | xr
  · simp [losD, specTriD, RF.lift6, RF.lift3, RF.sub, RF.mul, RF.div, RF.ltZero_none]
  rcases y with _ | yr
  · simp [losD, specTriD, RF.lift6, RF.lift3, RF.sub, RF.mul, RF.div, RF.ltZero_none]
  rcases z with _ | zr
  · simp [losD, specTriD, RF.lift6, RF.lift3, RF.sub, RF.mul, RF.div, RF.ltZero_none]
  rcases u with _ | ur
  · simp [losD, specTriD, RF.lift6, RF.lift3, RF.sub, RF.mul, RF.div, RF.ltZero_none]
  rcases v with _ | vr
  · simp [losD, specTriD, RF.lift6, RF.lift3, RF.sub, RF.mul, RF.div, RF.ltZero_none]
  rcases w with _ | wr
  · simp [losD, specTriD, RF.lift6, RF.lift3, RF.sub, RF.mul, RF.div, RF.ltZero_none]
  simp only [losD, specTriD, RF.lift6_some, RF.lift3_some, RF.mul_some, RF.sub_some]
  have hAAB : (0 : ℝ) < A * A * B := by positivity
  have hD : (A ^ 2 * B ^ 2 * ur * xr + A ^ 2 * B ^ 2 * vr * yr
        + A ^ 2 * A ^ 2 * wr * zr)
      * (A ^ 2 * B ^ 2 * ur * xr + A ^ 2 * B ^ 2 * vr * yr
        + A ^ 2 * A ^ 2 * wr * zr)
      - (A ^ 2 * B ^ 2 * ur ^ 2 + A ^ 2 * B ^ 2 * vr ^ 2 + A ^ 2 * A ^ 2 * wr ^ 2)
        * (A ^ 2 * B ^ 2 * xr ^ 2 + A ^ 2 * B ^ 2 * yr ^ 2 + A ^ 2 * A ^ 2 * zr ^ 2
          - A ^ 2 * A ^ 2 * B ^ 2)
      = (A * A * B) ^ 2 * radical A A B xr yr zr ur vr wr := by
    unfold radical
    ring
  have hBq : (0 : ℝ) - (A ^ 2 * B ^ 2 * ur * xr + A ^ 2 * B ^ 2 * vr * yr
        + A ^ 2 * A ^ 2 * wr * zr)
      = value A A B xr yr zr ur vr wr := by
    unfold value
    ring
  have hAq : A ^ 2 * B ^ 2 * ur ^ 2 + A ^ 2 * B ^ 2 * vr ^ 2 + A ^ 2 * A ^ 2 * wr ^ 2
      = magnitude A A B ur vr wr := by
    unfold magnitude
    ring
  rw [hD, hBq, hAq]
  by_cases hR : radical A A B xr yr zr ur vr wr < 0
  · rw [if_pos ((RF.ltZero_some _).mpr hR),
      if_pos ((RF.ltZero_some _).mpr (mul_neg_of_pos_of_neg (by positivity) hR))]
  · have hprod : ¬ (A * A * B) ^ 2 * radical A A B xr yr zr ur vr wr < 0 :=
      not_lt.mpr (mul_nonneg (sq_nonneg _) (not_lt.mp hR))
    rw [if_neg ((RF.ltZero_some _).not.mpr hR),
      if_neg ((RF.ltZero_some _).not.mpr hprod),
      fpSqrt_nonneg _ hR, fpSqrt_nonneg _ hprod,
      Real.sqrt_mul (sq_nonneg (A * A * B)) (radical A A B xr yr zr ur vr wr),
      Real.sqrt_sq hAAB.le, RF.mul_some, RF.sub_some]

/-- C6: for every supplied ellipsoid the solver inside `lookAtSpheroid` is
the general triaxial ray–ellipsoid quadratic instantiated with the axis
triple `(a, a, b)`, `a` the semi-major and `b` the semi-minor axis: the
returned per-element slant range equals the spec's general triaxial near
root at those axes. -/
theorem claim6_axis_triple (C : Collab) (lat0 lon0 h0 az tilt : PyVal)
    (e : Ellipsoid) (hae : 0 < e.semimajor_axis) (hce : 0 < e.semiminor_axis)
    (deg : Bool) (N i : Nat) (hg : guardOk h0)
    (hN : commonLen [atleast_1d lat0, atleast_1d lon0, h0, az, atleast_1d tilt]
      = some N)
    (hi : i < N) :
    ∃ la lo dd, lookAtSpheroid C lat0 lon0 h0 az tilt (some e) deg = .ok (la, lo, dd)
      ∧ dd.elem i = specTriD e.semimajor_axis e.semimajor_axis e.semiminor_axis
        (C.geodetic2ecef ((atleast_1d lat0).elem i) ((atleast_1d lon0).elem i)
          (h0.elem i) deg).1
        (C.geodetic2ecef ((atleast_1d lat0).elem i) ((atleast_1d lon0).elem i)
          (h0.elem i) deg).2.1
        (C.geodetic2ecef ((atleast_1d lat0).elem i) ((atleast_1d lon0).elem i)
          (h0.elem i) deg).2.2
        (losUVW C deg ((atleast_1d lat0).elem i) ((atleast_1d lon0).elem i)
          (az.elem i) ((atleast_1d tilt).elem i)).1
        (losUVW C deg ((atleast_1d lat0).elem i) ((atleast_1d lon0).elem i)
          (az.elem i) ((atleast_1d tilt).elem i)).2.1
        (losUVW C deg ((atleast_1d lat0).elem i) ((atleast_1d lon0).elem i)
          (az.elem i) ((atleast_1d tilt).elem i)).2.2 := by
  obtain ⟨la, lo, dd, heq, h1, h2, h3⟩ :=
    lookAt_elem C lat0 lon0 h0 az tilt (some e) deg N i hg hN hi
  refine ⟨la, lo, dd, heq, ?_⟩
  rw [h3]
  exact losD_eq_specTriD e.semimajor_axis e.semiminor_axis hae hce _ _ _ _ _ _

/-- Witness for C6 on the `CwHit` collaborators and the `⟨2, 1⟩` ellipsoid. -/
theorem claim6_witness :
    0 < (2 : ℝ) ∧ 0 < (1 : ℝ) ∧ guardOk (.scalar (some 5))
    ∧ commonLen [atleast_1d (.scalar (some 0)), atleast_1d (.scalar (some 0)),
        .scalar (some 5), .scalar (some 0), atleast_1d (.scalar (some 0))] = some 1
    ∧ (∃ la lo dd, lookAtSpheroid CwHit (.scalar (some 0)) (.scalar (some 0))
        (.scalar (some 5)) (.scalar (some 0)) (.scalar (some 0)) (some ⟨2, 1⟩) true
        = .ok (la, lo, dd)
      ∧ dd.elem 0 = specTriD 2 2 1
          (CwHit.geodetic2ecef (some 0) (some 0) (some 5) true).1
          (CwHit.geodetic2ecef (some 0) (some 0) (some 5) true).2.1
          (CwHit.geodetic2ecef (some 0) (some 0) (some 5) true).2.2
          (losUVW CwHit true (some 0) (some 0) (some 0) (some 0)).1
          (losUVW CwHit true (some 0) (some 0) (some 0) (some 0)).2.1
          (losUVW CwHit true (some 0) (some 0) (some 0) (some 0)).2.2) := by
  have hg : guardOk (.scalar (some 5)) := by
    simp only [guardOk, RF.ltZero_some]
    norm_num
  exact ⟨by norm_num, by norm_num, hg, rfl,
    claim6_axis_triple CwHit (.scalar (some 0)) (.scalar (some 0))
      (.scalar (some 5)) (.scalar (some 0)) (.scalar (some 0)) ⟨2, 1⟩
      (by norm_num) (by norm_num) true 1 0 hg rfl (by norm_num)⟩

@[simp] theorem d2rF_none (piv : ℝ) : d2rF piv none = none := rfl

@[simp] theorem r2dF_none (piv : ℝ) : r2dF piv none = none := rfl

@[simp] theorem fmap_scalar (f : RF → RF) (x : RF) :
    (PyVal.scalar x).fmap f = .scalar (f x) := rfl

@[simp] theorem fmap_arr (f : RF → RF) (l : List RF) :
    (PyVal.arr l).fmap f = .arr (l.map f) := rfl

/-- Mapping commutes with `atleast_1d`. -/
theorem fmap_atleast (f : RF → RF) (p : PyVal) :
    atleast_1d (p.fmap f) = (atleast_1d p).fmap f := by
  cases p <;> rfl

theorem getD_map_none (f : RF → RF) (hf : f none = none) (l : List RF) (i : Nat) :
    (l.map f).getD i none = f (l.getD i none) := by
  induction l generalizing i with
  | nil => simp [hf]
  | cons a t ih =>
    cases i with
    | zero => simp
    | succ n => simpa using ih n

/-- Mapping commutes with broadcast element access when the function fixes
the sentinel. -/
theorem fmap_elem (f : RF → RF) (hf : f none = none) (p : PyVal) (i : Nat) :
    (p.fmap f).elem i = f (p.elem i) := by
  cases p with
  | scalar x => rfl
  | arr l =>
    simp only [fmap_arr, PyVal.elem, List.length_map]
    by_cases h1 : l.length = 1
    · rw [if_pos h1, if_pos h1, getD_map_none f hf]
    · rw [if_neg h1, if_neg h1, getD_map_none f hf]

theorem elem_fmap_d2r (piv : ℝ) (p : PyVal) (i : Nat) :
    (p.fmap (d2rF piv)).elem i = d2rF piv (p.elem i) :=
  fmap_elem (d2rF piv) rfl p i

/-- Degree-to-radian mapping does not change broadcast lengths. -/
theorem commonLen5_fmap (f : RF → RF) (lat0 lon0 h0 az tilt : PyVal) :
    commonLen [atleast_1d (lat0.fmap f), atleast_1d (lon0.fmap f), h0,
        az.fmap f, atleast_1d (tilt.fmap f)]
      = commonLen [atleast_1d lat0, atleast_1d lon0, h0, az, atleast_1d tilt] := by
  cases lat0 <;> cases lon0 <;> cases az <;> cases tilt <;>
    simp [commonLen, atleast_1d, List.length_map]

/-- Mapping commutes with the final squeeze. -/
theorem squeeze_map (g : RF → RF) (l : List RF) :
    squeeze (l.map g) = (squeeze l).fmap g := by
  match l with
  | [] => rfl
  | [x] => rfl
  | x :: y :: t => rfl

/-- Elevation unit conversion: converting `tilt - 90` degrees to radians is
subtracting `pi/2` from the converted tilt. -/
theorem d2r_el (piv : ℝ) (tilt : RF) :
    d2rF piv (RF.sub tilt (some 90)) = RF.sub (d2rF piv tilt) (some (piv / 2)) := by
  cases tilt with
  | none => rfl
  | some t =>
    simp only [RF.sub_some, d2rF, Option.some_bind, RF.sub]
    rw [show (t - 90) * piv / 180 = t * piv / 180 - piv / 2 by ring]

/-- Direction stage under the unit contract: the degree call equals the
radian call on converted angles. -/
theorem losUVW_unit (C : Collab) (h : UnitCoherent C) (lat0 lon0 az tilt : RF) :
    losUVW C true lat0 lon0 az tilt
      = losUVW C false (d2rF C.pi lat0) (d2rF C.pi lon0) (d2rF C.pi az)
        (d2rF C.pi tilt) := by
  simp only [losUVW]
  rw [if_pos (by trivial), if_neg (by simp), h.aer, d2r_el, h.enu]

/-- Per-element pipeline under the unit contract: the degree call returns
degree angles (converted) and the same slant range as the radian call on
converted inputs. -/
theorem losElem_unit (C : Collab) (h : UnitCoherent C) (a b c : ℝ)
    (lat0 lon0 h0 az tilt : RF) :
    losElem C a b c true lat0 lon0 h0 az tilt
      = (r2dF C.pi (losElem C a b c false (d2rF C.pi lat0) (d2rF C.pi lon0) h0
          (d2rF C.pi az) (d2rF C.pi tilt)).1,
        r2dF C.pi (losElem C a b c false (d2rF C.pi lat0) (d2rF C.pi lon0) h0
          (d2rF C.pi az) (d2rF C.pi tilt)).2.1,
        (losElem C a b c false (d2rF C.pi lat0) (d2rF C.pi lon0) h0
          (d2rF C.pi az) (d2rF C.pi tilt)).2.2) := by
  simp only [losElem]
  rw [losUVW_unit C h, h.g2e, h.e2g]

/-- Body of the façade under the unit contract. -/
theorem losBody_unit (C : Collab) (h : UnitCoherent C) (lat0 lon0 h0 az tilt : PyVal)
    (ell : Option Ellipsoid) :
    losBody C lat0 lon0 h0 az tilt ell true
      = Except.map (fun r => (r.1.fmap (r2dF C.pi), r.2.1.fmap (r2dF C.pi), r.2.2))
        (losBody C (lat0.fmap (d2rF C.pi)) (lon0.fmap (d2rF C.pi)) h0
          (az.fmap (d2rF C.pi)) (tilt.fmap (d2rF C.pi)) ell false) := by
  have hptw : ∀ i : Nat, bodyF C lat0 lon0 h0 az tilt ell true i
      = (r2dF C.pi (bodyF C (lat0.fmap (d2rF C.pi)) (lon0.fmap (d2rF C.pi)) h0
          (az.fmap (d2rF C.pi)) (tilt.fmap (d2rF C.pi)) ell false i).1,
        r2dF C.pi (bodyF C (lat0.fmap (d2rF C.pi)) (lon0.fmap (d2rF C.pi)) h0
          (az.fmap (d2rF C.pi)) (tilt.fmap (d2rF C.pi)) ell false i).2.1,
        (bodyF C (lat0.fmap (d2rF C.pi)) (lon0.fmap (d2rF C.pi)) h0
          (az.fmap (d2rF C.pi)) (tilt.fmap (d2rF C.pi)) ell false i).2.2) := by
    intro i
    simp only [bodyF, fmap_atleast, elem_fmap_d2r]
    exact losElem_unit C h _ _ _ _ _ _ _ _
  unfold losBody
  rw [commonLen5_fmap]
  cases hcl : commonLen [atleast_1d lat0, atleast_1d lon0, h0, az, atleast_1d tilt] with
  | none => rfl
  | some N =>
    simp only [Except.map]
    have e1 : squeeze ((List.range N).map fun i =>
          (bodyF C lat0 lon0 h0 az tilt ell true i).1)
        = (squeeze ((List.range N).map fun i =>
          (bodyF C (lat0.fmap (d2rF C.pi)) (lon0.fmap (d2rF C.pi)) h0
            (az.fmap (d2rF C.pi)) (tilt.fmap (d2rF C.pi)) ell false i).1)).fmap
          (r2dF C.pi) := by
      rw [← squeeze_map, List.map_map]
      refine congrArg squeeze (List.map_congr_left ?_)
      intro i _
      rw [hptw i]
      rfl
    have e2 : squeeze ((List.range N).map fun i =>
          (bodyF C lat0 lon0 h0 az tilt ell true i).2.1)
        = (squeeze ((List.range N).map fun i =>
          (bodyF C (lat0.fmap (d2rF C.pi)) (lon0.fmap (d2rF C.pi)) h0
            (az.fmap (d2rF C.pi)) (tilt.fmap (d2rF C.pi)) ell false i).2.1)).fmap
          (r2dF C.pi) := by
      rw [← squeeze_map, List.map_map]
      refine congrArg squeeze (List.map_congr_left ?_)
      intro i _
      rw [hptw i]
      rfl
    have e3 : squeeze ((List.range N).map fun i =>
          (bodyF C lat0 lon0 h0 az tilt ell true i).2.2)
        = squeeze ((List.range N).map fun i =>
          (bodyF C (lat0.fmap (d2rF C.pi)) (lon0.fmap (d2rF C.pi)) h0
            (az.fmap (d2rF C.pi)) (tilt.fmap (d2rF C.pi)) ell false i).2.2) := by
      refine congrArg squeeze (List.map_congr_left ?_)
      intro i _
      rw [hptw i]
    rw [e1, e2, e3]

/-- C7: under the collaborator unit contract, a call with degree angles and
`deg = true` returns exactly the degree-converted latitude and longitude and
the same slant range as the call with the radian-converted angles and
`deg = false` — for every input, including the error and batched cases. -/
theorem claim7_degree_radian_agreement (C : Collab) (h : UnitCoherent C)
    (lat0 lon0 h0 az tilt : PyVal) (ell : Option Ellipsoid) :
    lookAtSpheroid C lat0 lon0 h0 az tilt ell true
      = Except.map (fun r => (r.1.fmap (r2dF C.pi), r.2.1.fmap (r2dF C.pi), r.2.2))
        (lookAtSpheroid C (lat0.fmap (d2rF C.pi)) (lon0.fmap (d2rF C.pi)) h0
          (az.fmap (d2rF C.pi)) (tilt.fmap (d2rF C.pi)) ell false) := by
  match h0 with
  | .scalar x =>
    simp only [lookAtSpheroid]
    by_cases hx : RF.ltZero x
    · rw [if_pos hx, if_pos hx]
      rfl
    · rw [if_neg hx, if_neg hx]
      exact losBody_unit C h lat0 lon0 (.scalar x) az tilt ell
  | .arr [] => rfl
  | .arr [x] =>
    simp only [lookAtSpheroid]
    by_cases hx : RF.ltZero x
    · rw [if_pos hx, if_pos hx]
      rfl
    · rw [if_neg hx, if_neg hx]
      exact losBody_unit C h lat0 lon0 (.arr [x]) az tilt ell
  | .arr (x :: y :: t) => rfl

/-- Witness for C7 with the constant (hence trivially unit-coherent)
`CwUnit` collaborators. -/
theorem claim7_witness :
    UnitCoherent CwUnit
    ∧ lookAtSpheroid CwUnit (.scalar (some 0)) (.scalar (some 0)) (.scalar (some 5))
        (.scalar (some 0)) (.scalar (some 0)) none true
      = Except.map (fun r => (r.1.fmap (r2dF CwUnit.pi), r.2.1.fmap (r2dF CwUnit.pi),
          r.2.2))
        (lookAtSpheroid CwUnit ((PyVal.scalar (some 0)).fmap (d2rF CwUnit.pi))
          ((PyVal.scalar (some 0)).fmap (d2rF CwUnit.pi)) (.scalar (some 5))
          ((PyVal.scalar (some 0)).fmap (d2rF CwUnit.pi))
          ((PyVal.scalar (some 0)).fmap (d2rF CwUnit.pi)) none false) := by
  have hU : UnitCoherent CwUnit := by
    refine ⟨fun _ _ _ => rfl, fun _ _ _ _ _ => rfl, fun _ _ _ => rfl, fun x y z => ?_⟩
    show ((some 0 : RF), (some 0 : RF), (some 0 : RF))
      = (r2dF CwUnit.pi (some 0), r2dF CwUnit.pi (some 0), (some 0 : RF))
    simp [r2dF, CwUnit]
  exact ⟨hU, claim7_degree_radian_agreement CwUnit hU _ _ _ _ _ none⟩

end Los
